import Mathlib

/-!
Verification development for the sepsis-cohort preprocessing core
(src/MIMIC-sepsis/src/init_preprocess.py).

Tables are embedded as lists of records, one record per row, in row order.
Timestamps are Unix epoch seconds, embedded as integers.  The two core
routines, fill_missing_icustay_ids and find_infection_onset, are embedded
as pure functions below; each definition's doc comment points at the
source lines it translates.
-/

/-- One row of the demographics / stay table (demog.csv): one ICU stay.
The resolver uses the columns subject_id, hadm_id, stay_id, intime, outtime
(init_preprocess.py lines 115 and 134); subject_id and hadm_id may be null
in the source table (both paths drop null keys), so they are optional. -/
structure Stay where
  stay_id : Int
  subject_id : Option Int
  hadm_id : Option Int
  intime : Int
  outtime : Int
deriving DecidableEq

/-- One row of the combined bacteriology table (microbio + culture).
The core uses subject_id, charttime and the optional stay_id
(init_preprocess.py lines 108, 120, 170). -/
structure BactEvent where
  subject_id : Int
  charttime : Int
  stay_id : Option Int
deriving DecidableEq

/-- One row of the antibiotic administrations table (abx.csv).
Modelled from the spec: the schema of abx.csv is produced by an extraction
step (extraction_metadata.json) that is not in the source tree; per the
spec's data model, an antibiotic event carries an encounter key (hadm_id),
a reference time (starttime) and an optional stay_id.  The core uses
hadm_id and starttime (init_preprocess.py lines 139, 140) and writes
stay_id (line 148). -/
structure AbxEvent where
  hadm_id : Int
  starttime : Int
  stay_id : Option Int
deriving DecidableEq

/-- One row of the onset output table (init_preprocess.py line 202). -/
structure OnsetRecord where
  subject_id : Int
  stay_id : Int
  onset_time : Int
deriving DecidableEq

/-- The resolution window: 48 hours in seconds (init_preprocess.py
lines 121 and 140 use the literal 48*3600). -/
def window_seconds : Int := 48 * 3600

/-- Candidate stays for a culture event: demog rows with a non-null
subject_id equal to the event's subject_id.  Translates the dropna on
subject_id (line 115) followed by the inner merge on subject_id
(line 120); candidates keep demog row order, as the pandas inner merge
enumerates right-table matches in right-table order. -/
def bactCands (demog : List Stay) (subject : Int) : List Stay :=
  (demog.filter fun s => s.subject_id.isSome).filter
    fun s => decide (s.subject_id = some subject)

/-- Valid candidate stays for a culture event: the time mask
charttime >= intime - 48*3600 and charttime <= outtime + 48*3600
(line 121), or stay_count = 1 for the subject (line 122); stay_count
(lines 116-117) is the number of demog rows sharing the subject key. -/
def bactValid (demog : List Stay) (subject charttime : Int) : List Stay :=
  let cands := bactCands demog subject
  cands.filter fun s =>
    decide ((s.intime - window_seconds ≤ charttime ∧
             charttime ≤ s.outtime + window_seconds) ∨ cands.length = 1)

/-- Resolution of one bacteriology row.  Rows with a stay_id are not in
missing_bact (line 108) and pass through; for a missing row the .loc
assignment at line 126 writes each valid candidate's stay_id at the row's
index in merge order, so the last valid candidate wins; with no valid
candidate the row is untouched. -/
def resolveBact (demog : List Stay) (e : BactEvent) : BactEvent :=
  match e.stay_id with
  | some _ => e
  | none =>
    match (bactValid demog e.subject_id e.charttime).getLast? with
    | some s => { e with stay_id := some s.stay_id }
    | none => e

/-- Candidate stays for an antibiotic event: demog rows with a non-null
hadm_id equal to the event's hadm_id (dropna line 134, inner merge
line 139). -/
def abxCands (demog : List Stay) (hadm : Int) : List Stay :=
  (demog.filter fun s => s.hadm_id.isSome).filter
    fun s => decide (s.hadm_id = some hadm)

/-- Valid candidate stays for an antibiotic event: the time mask on
starttime (line 140) or stay_count = 1 for the hadm_id (lines 135-136,
141). -/
def abxValid (demog : List Stay) (hadm starttime : Int) : List Stay :=
  let cands := abxCands demog hadm
  cands.filter fun s =>
    decide ((s.intime - window_seconds ≤ starttime ∧
             starttime ≤ s.outtime + window_seconds) ∨ cands.length = 1)

/-- Resolution of one antibiotic row.  Unlike the bacteriology path, the
abx path merges every row (line 131 takes abx.index with no isna filter),
keeps the last valid candidate per row (drop_duplicates keep='last',
line 145) and writes its stay_id back at line 148, regardless of any
stay_id the row already carried; with no valid candidate the row is
untouched. -/
def resolveAbx (demog : List Stay) (e : AbxEvent) : AbxEvent :=
  match (abxValid demog e.hadm_id e.starttime).getLast? with
  | some s => { e with stay_id := some s.stay_id }
  | none => e

/-- fill_missing_icustay_ids (init_preprocess.py lines 95-151): resolves
stay ids row by row in both tables; rows are independent because the .loc
updates write each row only at its own index. -/
def fill_missing_icustay_ids (bacterio : List BactEvent) (demog : List Stay)
    (abx : List AbxEvent) : List BactEvent × List AbxEvent :=
  (bacterio.map (resolveBact demog), abx.map (resolveAbx demog))

/-- The absolute antibiotic-culture time difference in hours
(init_preprocess.py line 176: (starttime - charttime).abs() / 3600),
embedded exactly over the rationals; the theorem diff_hr_eq_div below
identifies it with the literal absolute difference divided by 3600. -/
def diff_hr (starttime charttime : Int) : ℚ :=
  mkRat ((starttime - charttime).natAbs) 3600

/-- The nearest bacteriology row for one antibiotic row: the stable sort
by ['abx_idx', 'diff_hr'] (line 177) followed by drop_duplicates on
abx_idx keeping the first row (line 178) retains, per antibiotic row, the
candidate with minimal diff_hr, breaking ties by merge order (the
candidate list order).  This recursion returns exactly that first
minimiser. -/
def pickClosest (t : Int) : List BactEvent → Option BactEvent
  | [] => none
  | b :: bs =>
    match pickClosest t bs with
    | none => some b
    | some c =>
      if diff_hr t c.charttime < diff_hr t b.charttime then some c else some b

/-- Condition 1 (line 183): antibiotic within 24 hours before or at the
culture time. -/
def cond1 (starttime charttime : Int) : Bool :=
  decide (diff_hr starttime charttime ≤ 24 ∧ starttime ≤ charttime)

/-- Condition 2 (line 184): antibiotic within 72 hours after or at the
culture time. -/
def cond2 (starttime charttime : Int) : Bool :=
  decide (diff_hr starttime charttime ≤ 72 ∧ charttime ≤ starttime)

/-- The onset time of one antibiotic-culture pair: rows satisfying
cond1 or cond2 are kept (line 186) and np.where(valid_cond1, starttime,
charttime) (lines 193-197) picks starttime when cond1 holds and charttime
otherwise. -/
def onsetOfPair (starttime charttime : Int) : Option Int :=
  if cond1 starttime charttime then some starttime
  else if cond2 starttime charttime then some charttime
  else none

/-- bact_sub (line 170): bacteriology rows with a resolved stay_id. -/
def bactSubOf (bacterio : List BactEvent) : List BactEvent :=
  bacterio.filter fun b => b.stay_id.isSome

/-- The onset record produced by one antibiotic row: rows without a
stay_id are dropped (line 166); the inner merge on stay_id (line 173)
pairs the row with the bact_sub rows sharing its stay_id, the nearest one
is kept (lines 176-178) and the causal test applied (lines 183-197); the
record carries the culture row's subject_id (lines 170, 202). -/
def onsetForAbx (bactSub : List BactEvent) (a : AbxEvent) : Option OnsetRecord :=
  match a.stay_id with
  | none => none
  | some sid =>
    match pickClosest a.starttime
        (bactSub.filter fun b => decide (b.stay_id = some sid)) with
    | none => none
    | some b =>
      (onsetOfPair a.starttime b.charttime).map
        fun t => ⟨b.subject_id, sid, t⟩

/-- drop_duplicates on stay_id keeping the first row (line 200), over a
list already in abx_idx order: keeps the first record of each stay. -/
def dedupByStay : List OnsetRecord → List Int → List OnsetRecord
  | [], _ => []
  | r :: rs, seen =>
    if r.stay_id ∈ seen then dedupByStay rs seen
    else r :: dedupByStay rs (r.stay_id :: seen)

/-- find_infection_onset (init_preprocess.py lines 153-204).  The
filterMap enumerates antibiotic rows in original index order, matching
the sort by abx_idx at lines 177 and 200. -/
def find_infection_onset (abx : List AbxEvent) (bacterio : List BactEvent) :
    List OnsetRecord :=
  dedupByStay (abx.filterMap (onsetForAbx (bactSubOf bacterio))) []

/-- The embedded diff_hr is the literal source expression: the absolute
difference of the two timestamps divided by 3600. -/
theorem diff_hr_eq_div (s c : Int) : diff_hr s c = |(s : ℚ) - c| / 3600 := by
  rw [diff_hr, Rat.mkRat_eq_div, Int.cast_natAbs]
  push_cast
  ring

theorem resolveBact_idem (demog : List Stay) (e : BactEvent) :
    resolveBact demog (resolveBact demog e) = resolveBact demog e := by
  cases e with
  | mk subj ct sid =>
    cases sid with
    | some v => rfl
    | none =>
      cases h : (bactValid demog subj ct).getLast? with
      | some s => simp [resolveBact, h]
      | none => simp [resolveBact, h]

theorem resolveAbx_idem (demog : List Stay) (e : AbxEvent) :
    resolveAbx demog (resolveAbx demog e) = resolveAbx demog e := by
  cases e with
  | mk hadm st sid =>
    cases h : (abxValid demog hadm st).getLast? with
    | some s => simp [resolveAbx, h]
    | none => simp [resolveAbx, h]

theorem map_map_eq_of_idem {α : Type} (f : α → α) (hf : ∀ a, f (f a) = f a) :
    ∀ l : List α, (l.map f).map f = l.map f := by
  intro l
  induction l with
  | nil => rfl
  | cons a l ih => simp only [List.map_cons, hf, ih]

/-- Claim C8: running the stay resolver a second time on its own output,
with the same stay table, changes nothing, in both the culture and the
antibiotic resolution paths. -/
theorem C8_resolver_idempotent :
    ∀ (demog : List Stay) (bacterio : List BactEvent) (abx : List AbxEvent),
      fill_missing_icustay_ids (fill_missing_icustay_ids bacterio demog abx).1
          demog (fill_missing_icustay_ids bacterio demog abx).2
        = fill_missing_icustay_ids bacterio demog abx := by
  intro demog bacterio abx
  unfold fill_missing_icustay_ids
  refine Prod.ext ?_ ?_
  · exact map_map_eq_of_idem _ (resolveBact_idem demog) bacterio
  · exact map_map_eq_of_idem _ (resolveAbx_idem demog) abx

theorem dedupByStay_subset :
    ∀ (l : List OnsetRecord) (seen : List Int) (r : OnsetRecord),
      r ∈ dedupByStay l seen → r ∈ l := by
  intro l
  induction l with
  | nil =>
    intro seen r h
    simp [dedupByStay] at h
  | cons x xs ih =>
    intro seen r h
    simp only [dedupByStay] at h
    by_cases hx : x.stay_id ∈ seen
    · rw [if_pos hx] at h
      exact List.mem_cons_of_mem _ (ih seen r h)
    · rw [if_neg hx] at h
      rcases List.mem_cons.mp h with h1 | h2
      · exact h1 ▸ List.mem_cons_self x xs
      · exact List.mem_cons_of_mem _ (ih _ r h2)

theorem dedupByStay_filter (s : Int) :
    ∀ (l : List OnsetRecord) (seen : List Int),
      (dedupByStay l seen).filter (fun r => decide (r.stay_id = s))
        = if s ∈ seen then []
          else (l.filter fun r => decide (r.stay_id = s)).take 1 := by
  intro l
  induction l with
  | nil =>
    intro seen
    by_cases hs : s ∈ seen <;> simp [dedupByStay, hs]
  | cons x xs ih =>
    intro seen
    simp only [dedupByStay]
    by_cases hx : x.stay_id ∈ seen
    · rw [if_pos hx, ih seen]
      by_cases hs : s ∈ seen
      · simp [hs]
      · have hxs : ¬ (x.stay_id = s) := fun he => hs (he ▸ hx)
        simp [hs, List.filter_cons, hxs]
    · rw [if_neg hx]
      by_cases hxe : x.stay_id = s
      · have hs : s ∉ seen := fun he => hx (hxe ▸ he)
        rw [List.filter_cons_of_pos (by simp [hxe]), ih]
        have hmem : s ∈ x.stay_id :: seen := by simp [hxe]
        rw [if_pos hmem, if_neg hs, List.filter_cons_of_pos (by simp [hxe])]
        simp
      · rw [List.filter_cons_of_neg (by simp [hxe]), ih]
        have : (s ∈ x.stay_id :: seen) ↔ (s ∈ seen) := by
          constructor
          · intro h
            rcases List.mem_cons.mp h with h1 | h2
            · exact absurd h1.symm hxe
            · exact h2
          · intro h
            exact List.mem_cons_of_mem _ h
        by_cases hs : s ∈ seen
        · rw [if_pos (this.mpr hs), if_pos hs]
        · rw [if_neg (fun h => hs (this.mp h)), if_neg hs,
            List.filter_cons_of_neg (by simp [hxe])]

/-- Claim C7: for every stay_id, the onset detector emits at most one
record, and the record emitted for a stay is the first qualifying record
in original antibiotic input order (the antibiotic event with the
smallest input index), not the record with the minimal onset_time. -/
theorem C7_one_record_per_stay :
    ∀ (abx : List AbxEvent) (bacterio : List BactEvent) (s : Int),
      ((find_infection_onset abx bacterio).filter
          (fun r => decide (r.stay_id = s))).length ≤ 1
      ∧ (find_infection_onset abx bacterio).filter
            (fun r => decide (r.stay_id = s))
          = ((abx.filterMap (onsetForAbx (bactSubOf bacterio))).filter
              (fun r => decide (r.stay_id = s))).take 1 := by
  intro abx bacterio s
  have h2 : (find_infection_onset abx bacterio).filter
        (fun r => decide (r.stay_id = s))
      = ((abx.filterMap (onsetForAbx (bactSubOf bacterio))).filter
          (fun r => decide (r.stay_id = s))).take 1 := by
    unfold find_infection_onset
    rw [dedupByStay_filter]
    simp
  refine ⟨?_, h2⟩
  rw [h2]
  simp [List.length_take_le]

theorem pickClosest_cons_of_none {t : Int} {bs : List BactEvent} (b : BactEvent)
    (h : pickClosest t bs = none) : pickClosest t (b :: bs) = some b := by
  have e : pickClosest t (b :: bs)
      = match pickClosest t bs with
        | none => some b
        | some c =>
          if diff_hr t c.charttime < diff_hr t b.charttime then some c
          else some b := rfl
  rw [e, h]

theorem pickClosest_cons_of_some {t : Int} {bs : List BactEvent} {c : BactEvent}
    (b : BactEvent) (h : pickClosest t bs = some c) :
    pickClosest t (b :: bs)
      = if diff_hr t c.charttime < diff_hr t b.charttime then some c
        else some b := by
  have e : pickClosest t (b :: bs)
      = match pickClosest t bs with
        | none => some b
        | some c =>
          if diff_hr t c.charttime < diff_hr t b.charttime then some c
          else some b := rfl
  rw [e, h]

theorem pickClosest_eq_none_iff (t : Int) (l : List BactEvent) :
    pickClosest t l = none ↔ l = [] := by
  cases l with
  | nil => simp [pickClosest]
  | cons b bs =>
    cases h : pickClosest t bs with
    | none =>
      rw [pickClosest_cons_of_none b h]
      simp
    | some c =>
      rw [pickClosest_cons_of_some b h]
      split <;> simp

theorem pickClosest_mem (t : Int) :
    ∀ (l : List BactEvent) (c : BactEvent), pickClosest t l = some c → c ∈ l := by
  intro l
  induction l with
  | nil =>
    intro c h
    simp [pickClosest] at h
  | cons b bs ih =>
    intro c h
    cases hb : pickClosest t bs with
    | none =>
      rw [pickClosest_cons_of_none b hb] at h
      have hbc : b = c := by injection h
      exact hbc ▸ List.mem_cons_self b bs
    | some d =>
      rw [pickClosest_cons_of_some b hb] at h
      by_cases hlt : diff_hr t d.charttime < diff_hr t b.charttime
      · rw [if_pos hlt] at h
        have hdc : d = c := by injection h
        exact List.mem_cons_of_mem _ (hdc ▸ ih d hb)
      · rw [if_neg hlt] at h
        have hbc : b = c := by injection h
        exact hbc ▸ List.mem_cons_self b bs

theorem pickClosest_min (t : Int) :
    ∀ (l : List BactEvent) (c : BactEvent), pickClosest t l = some c →
      ∀ x ∈ l, diff_hr t c.charttime ≤ diff_hr t x.charttime := by
  intro l
  induction l with
  | nil =>
    intro c h
    simp [pickClosest] at h
  | cons b bs ih =>
    intro c h x hx
    cases hb : pickClosest t bs with
    | none =>
      rw [pickClosest_cons_of_none b hb] at h
      have hbs : bs = [] := (pickClosest_eq_none_iff t bs).mp hb
      subst hbs
      have hbc : b = c := by injection h
      rcases List.mem_cons.mp hx with h1 | h1
      · exact h1 ▸ hbc ▸ le_refl _
      · simp at h1
    | some d =>
      rw [pickClosest_cons_of_some b hb] at h
      by_cases hlt : diff_hr t d.charttime < diff_hr t b.charttime
      · rw [if_pos hlt] at h
        have hdc : d = c := by injection h
        rcases List.mem_cons.mp hx with h1 | h1
        · exact h1 ▸ hdc ▸ le_of_lt hlt
        · exact hdc ▸ ih d hb x h1
      · rw [if_neg hlt] at h
        have hbc : b = c := by injection h
        push_neg at hlt
        rcases List.mem_cons.mp hx with h1 | h1
        · exact h1 ▸ hbc ▸ le_refl _
        · exact hbc ▸ le_trans hlt (ih d hb x h1)

theorem find?_congr_of_mem {α : Type} (p q : α → Bool) :
    ∀ l : List α, (∀ x ∈ l, p x = q x) → l.find? p = l.find? q := by
  intro l
  induction l with
  | nil => intro h; rfl
  | cons a l ih =>
    intro h
    have ha := h a (List.mem_cons_self a l)
    cases hpa : p a with
    | true =>
      rw [List.find?_cons_of_pos _ hpa, List.find?_cons_of_pos _ (ha ▸ hpa)]
    | false =>
      rw [List.find?_cons_of_neg _ (by simp [hpa]),
        List.find?_cons_of_neg _ (by simp [← ha, hpa])]
      exact ih fun x hx => h x (List.mem_cons_of_mem _ hx)

set_option maxHeartbeats 1000000 in
theorem pickClosest_eq_find? (t : Int) :
    ∀ l : List BactEvent,
      pickClosest t l
        = l.find? fun b =>
            l.all fun c =>
              decide (diff_hr t b.charttime ≤ diff_hr t c.charttime) := by
  intro l
  induction l with
  | nil => simp [pickClosest]
  | cons b bs ih =>
    cases hb : pickClosest t bs with
    | none =>
      have hbs : bs = [] := (pickClosest_eq_none_iff t bs).mp hb
      subst hbs
      rw [pickClosest_cons_of_none b hb]
      simp
    | some c =>
      have hmin := pickClosest_min t bs c hb
      have hmem := pickClosest_mem t bs c hb
      by_cases hlt : diff_hr t c.charttime < diff_hr t b.charttime
      · have hL : pickClosest t (b :: bs) = some c := by
          rw [pickClosest_cons_of_some b hb, if_pos hlt]
        have hpb : ((b :: bs).all fun x =>
            decide (diff_hr t b.charttime ≤ diff_hr t x.charttime)) = false := by
          cases hq : ((b :: bs).all fun x =>
              decide (diff_hr t b.charttime ≤ diff_hr t x.charttime)) with
          | false => rfl
          | true =>
            exfalso
            have hc := List.all_eq_true.mp hq c (List.mem_cons_of_mem _ hmem)
            rw [decide_eq_true_eq] at hc
            exact absurd hc (not_le.mpr hlt)
        rw [hL, List.find?_cons]
        simp only [hpb]
        have hcong : ∀ x ∈ bs,
            ((b :: bs).all fun y =>
              decide (diff_hr t x.charttime ≤ diff_hr t y.charttime))
            = (bs.all fun y =>
              decide (diff_hr t x.charttime ≤ diff_hr t y.charttime)) := by
          intro x hx
          cases hq : (bs.all fun y =>
              decide (diff_hr t x.charttime ≤ diff_hr t y.charttime)) with
          | false => simp [List.all_cons, hq]
          | true =>
            simp only [List.all_cons, hq, Bool.and_true, decide_eq_true_eq]
            have hxc : diff_hr t x.charttime ≤ diff_hr t c.charttime := by
              have hc := List.all_eq_true.mp hq c hmem
              rwa [decide_eq_true_eq] at hc
            exact le_of_lt (lt_of_le_of_lt hxc hlt)
        rw [find?_congr_of_mem _ _ bs hcong, ← ih, hb]
      · have hL : pickClosest t (b :: bs) = some b := by
          rw [pickClosest_cons_of_some b hb, if_neg hlt]
        push_neg at hlt
        have hpb : ((b :: bs).all fun x =>
            decide (diff_hr t b.charttime ≤ diff_hr t x.charttime)) = true := by
          simp only [List.all_eq_true]
          intro x hx
          rw [decide_eq_true_eq]
          rcases List.mem_cons.mp hx with h1 | h1
          · exact h1 ▸ le_refl _
          · exact le_trans hlt (hmin x h1)
        rw [hL, List.find?_cons]
        simp only [hpb]

/-- Claim C6: for each antibiotic event with a set stay_id, the single
culture pairing retained for the causal test is the one among the
cultures sharing its stay_id with the minimum diff_hr; when several
pairings tie on that minimum, the first-encountered pairing in join
order is kept. -/
theorem C6_nearest_culture :
    ∀ (bacterio : List BactEvent) (a : AbxEvent) (sid : Int),
      a.stay_id = some sid →
      pickClosest a.starttime
          ((bactSubOf bacterio).filter fun b => decide (b.stay_id = some sid))
        = ((bactSubOf bacterio).filter fun b => decide (b.stay_id = some sid)).find?
            fun b =>
              ((bactSubOf bacterio).filter fun c =>
                  decide (c.stay_id = some sid)).all
                fun c =>
                  decide (diff_hr a.starttime b.charttime
                    ≤ diff_hr a.starttime c.charttime) := by
  intro bacterio a sid _
  exact pickClosest_eq_find? a.starttime _

theorem C6_nearest_culture_witness :
    pickClosest 100 ((bactSubOf [⟨4, 7300, some 2⟩, ⟨5, 200, some 2⟩, ⟨6, 0, some 2⟩]).filter fun b => decide (b.stay_id = some 2))
      = ((bactSubOf [⟨4, 7300, some 2⟩, ⟨5, 200, some 2⟩, ⟨6, 0, some 2⟩]).filter fun b => decide (b.stay_id = some 2)).find?
          fun b =>
            ((bactSubOf [⟨4, 7300, some 2⟩, ⟨5, 200, some 2⟩, ⟨6, 0, some 2⟩]).filter fun c => decide (c.stay_id = some 2)).all
              fun c => decide (diff_hr 100 b.charttime ≤ diff_hr 100 c.charttime) :=
  C6_nearest_culture [⟨4, 7300, some 2⟩, ⟨5, 200, some 2⟩, ⟨6, 0, some 2⟩]
    ⟨9, 100, some 2⟩ 2 rfl

/-- Claim C3: for the nearest antibiotic-culture pair, if diff_hr is at
most 24 and the antibiotic time is at most the culture time the onset is
the antibiotic time; otherwise if diff_hr is at most 72 and the
antibiotic time is at least the culture time the onset is the culture
time; otherwise there is no onset candidate.  Both thresholds are
inclusive and equal timestamps resolve to the antibiotic time. -/
theorem C3_causal_branches :
    ∀ (starttime charttime : Int),
      (diff_hr starttime charttime ≤ 24 → starttime ≤ charttime →
        onsetOfPair starttime charttime = some starttime)
      ∧ (¬ (diff_hr starttime charttime ≤ 24 ∧ starttime ≤ charttime) →
          diff_hr starttime charttime ≤ 72 → charttime ≤ starttime →
          onsetOfPair starttime charttime = some charttime)
      ∧ (¬ (diff_hr starttime charttime ≤ 24 ∧ starttime ≤ charttime) →
          ¬ (diff_hr starttime charttime ≤ 72 ∧ charttime ≤ starttime) →
          onsetOfPair starttime charttime = none)
      ∧ (starttime = charttime → onsetOfPair starttime charttime = some starttime) := by
  intro s c
  refine ⟨?_, ?_, ?_, ?_⟩
  · intro h1 h2
    have hc1 : cond1 s c = true := by
      rw [cond1]
      exact decide_eq_true ⟨h1, h2⟩
    simp [onsetOfPair, hc1]
  · intro hn h1 h2
    have hc1 : cond1 s c = false := by
      rw [cond1]
      exact decide_eq_false hn
    have hc2 : cond2 s c = true := by
      rw [cond2]
      exact decide_eq_true ⟨h1, h2⟩
    simp [onsetOfPair, hc1, hc2]
  · intro hn1 hn2
    have hc1 : cond1 s c = false := by
      rw [cond1]
      exact decide_eq_false hn1
    have hc2 : cond2 s c = false := by
      rw [cond2]
      exact decide_eq_false hn2
    simp [onsetOfPair, hc1, hc2]
  · intro he
    subst he
    have h0 : diff_hr s s = 0 := by
      rw [diff_hr, sub_self, Int.natAbs_zero, Rat.mkRat_eq_div]
      norm_num
    have hc1 : cond1 s s = true := by
      rw [cond1]
      exact decide_eq_true ⟨by rw [h0]; norm_num, le_refl s⟩
    simp [onsetOfPair, hc1]

theorem C3_causal_branches_witness :
    onsetOfPair 0 86400 = some 0 ∧ onsetOfPair 90000 0 = some 0
    ∧ onsetOfPair 500000 0 = none ∧ onsetOfPair 5 5 = some 5 :=
  ⟨(C3_causal_branches 0 86400).1 (by decide) (by decide),
   (C3_causal_branches 90000 0).2.1 (by decide) (by decide) (by decide),
   (C3_causal_branches 500000 0).2.2.1 (by decide) (by decide),
   (C3_causal_branches 5 5).2.2.2 rfl⟩

/-- Claim C4: a candidate stay sharing the event's join key is valid if
and only if the event's reference time lies in the inclusive window
around the stay, or the join key maps to exactly one stay in total; with
no valid candidate the event is left untouched, in both paths. -/
theorem C4_candidate_validity :
    ∀ (demog : List Stay),
      (∀ (e : BactEvent) (s : Stay), e.stay_id = none →
        (s ∈ bactValid demog e.subject_id e.charttime ↔
          s ∈ bactCands demog e.subject_id ∧
            ((s.intime - window_seconds ≤ e.charttime ∧
              e.charttime ≤ s.outtime + window_seconds) ∨
             (bactCands demog e.subject_id).length = 1)))
      ∧ (∀ e : BactEvent, e.stay_id = none →
          bactValid demog e.subject_id e.charttime = [] →
          resolveBact demog e = e)
      ∧ (∀ (e : AbxEvent) (s : Stay), e.stay_id = none →
        (s ∈ abxValid demog e.hadm_id e.starttime ↔
          s ∈ abxCands demog e.hadm_id ∧
            ((s.intime - window_seconds ≤ e.starttime ∧
              e.starttime ≤ s.outtime + window_seconds) ∨
             (abxCands demog e.hadm_id).length = 1)))
      ∧ (∀ e : AbxEvent, e.stay_id = none →
          abxValid demog e.hadm_id e.starttime = [] →
          resolveAbx demog e = e) := by
  intro demog
  refine ⟨?_, ?_, ?_, ?_⟩
  · intro e s _
    simp [bactValid, List.mem_filter]
  · intro e he hv
    obtain ⟨subj, ct, sid⟩ := e
    have hsid : sid = none := he
    subst hsid
    simp only [resolveBact]
    rw [hv]
    rfl
  · intro e s _
    simp [abxValid, List.mem_filter]
  · intro e he hv
    obtain ⟨hadm, st, sid⟩ := e
    have hsid : sid = none := he
    subst hsid
    simp only [resolveAbx]
    rw [hv]
    rfl

theorem C4_candidate_validity_witness :
    ((⟨1, some 7, some 3, 0, 10⟩ : Stay)
        ∈ bactValid [⟨1, some 7, some 3, 0, 10⟩] 7 999999 ↔
      (⟨1, some 7, some 3, 0, 10⟩ : Stay) ∈ bactCands [⟨1, some 7, some 3, 0, 10⟩] 7 ∧
        ((0 - window_seconds ≤ 999999 ∧ (999999 : Int) ≤ 10 + window_seconds) ∨
          (bactCands [⟨1, some 7, some 3, 0, 10⟩] 7).length = 1))
    ∧ resolveBact [⟨1, some 7, some 3, 0, 10⟩] ⟨8, 5, none⟩ = ⟨8, 5, none⟩
    ∧ ((⟨1, some 7, some 3, 0, 10⟩ : Stay)
        ∈ abxValid [⟨1, some 7, some 3, 0, 10⟩] 3 999999 ↔
      (⟨1, some 7, some 3, 0, 10⟩ : Stay) ∈ abxCands [⟨1, some 7, some 3, 0, 10⟩] 3 ∧
        ((0 - window_seconds ≤ 999999 ∧ (999999 : Int) ≤ 10 + window_seconds) ∨
          (abxCands [⟨1, some 7, some 3, 0, 10⟩] 3).length = 1))
    ∧ resolveAbx [⟨1, some 7, some 3, 0, 10⟩] ⟨4, 5, none⟩ = ⟨4, 5, none⟩ :=
  ⟨(C4_candidate_validity [⟨1, some 7, some 3, 0, 10⟩]).1
      ⟨7, 999999, none⟩ ⟨1, some 7, some 3, 0, 10⟩ rfl,
   (C4_candidate_validity [⟨1, some 7, some 3, 0, 10⟩]).2.1
      ⟨8, 5, none⟩ rfl (by decide),
   (C4_candidate_validity [⟨1, some 7, some 3, 0, 10⟩]).2.2.1
      ⟨3, 999999, none⟩ ⟨1, some 7, some 3, 0, 10⟩ rfl,
   (C4_candidate_validity [⟨1, some 7, some 3, 0, 10⟩]).2.2.2
      ⟨4, 5, none⟩ rfl (by decide)⟩

/-- Claim C5: when more than one candidate stay is valid for an
unresolved event, the assigned stay is the last valid candidate in
join-enumeration order (the valid lists are sublists of the demog table,
so their order is demog enumeration order), in both paths. -/
theorem C5_last_valid_candidate :
    ∀ (demog : List Stay),
      (∀ k t, (bactValid demog k t).Sublist demog ∧
        (abxValid demog k t).Sublist demog)
      ∧ (∀ (e : BactEvent) (s : Stay), e.stay_id = none →
          1 < (bactValid demog e.subject_id e.charttime).length →
          (bactValid demog e.subject_id e.charttime).getLast? = some s →
          (resolveBact demog e).stay_id = some s.stay_id)
      ∧ (∀ (e : AbxEvent) (s : Stay), e.stay_id = none →
          1 < (abxValid demog e.hadm_id e.starttime).length →
          (abxValid demog e.hadm_id e.starttime).getLast? = some s →
          (resolveAbx demog e).stay_id = some s.stay_id) := by
  intro demog
  refine ⟨?_, ?_, ?_⟩
  · intro k t
    constructor
    · exact ((List.filter_sublist _).trans
        ((List.filter_sublist _).trans (List.filter_sublist _)) :
        (bactValid demog k t).Sublist demog)
    · exact ((List.filter_sublist _).trans
        ((List.filter_sublist _).trans (List.filter_sublist _)) :
        (abxValid demog k t).Sublist demog)
  · intro e s he _ hlast
    obtain ⟨subj, ct, sid⟩ := e
    have hsid : sid = none := he
    subst hsid
    simp only [resolveBact]
    rw [hlast]
  · intro e s _ _ hlast
    obtain ⟨hadm, st, sid⟩ := e
    simp only [resolveAbx]
    rw [hlast]

theorem C5_last_valid_candidate_witness :
    (resolveBact [⟨1, some 7, some 3, 0, 10⟩, ⟨2, some 7, some 3, 5, 20⟩]
        ⟨7, 6, none⟩).stay_id = some 2
    ∧ (resolveAbx [⟨1, some 7, some 3, 0, 10⟩, ⟨2, some 7, some 3, 5, 20⟩]
        ⟨3, 6, none⟩).stay_id = some 2 :=
  ⟨(C5_last_valid_candidate
      [⟨1, some 7, some 3, 0, 10⟩, ⟨2, some 7, some 3, 5, 20⟩]).2.1
      ⟨7, 6, none⟩ ⟨2, some 7, some 3, 5, 20⟩ rfl (by decide) (by decide),
   (C5_last_valid_candidate
      [⟨1, some 7, some 3, 0, 10⟩, ⟨2, some 7, some 3, 5, 20⟩]).2.2
      ⟨3, 6, none⟩ ⟨2, some 7, some 3, 5, 20⟩ rfl (by decide) (by decide)⟩

theorem onsetForAbx_inv (bactSub : List BactEvent) (a : AbxEvent) (r : OnsetRecord)
    (h : onsetForAbx bactSub a = some r) :
    a.stay_id = some r.stay_id ∧
    ∃ b, pickClosest a.starttime
          (bactSub.filter fun x => decide (x.stay_id = some r.stay_id)) = some b
      ∧ b ∈ bactSub ∧ b.stay_id = some r.stay_id
      ∧ r.subject_id = b.subject_id
      ∧ (r.onset_time = a.starttime ∨ r.onset_time = b.charttime) := by
  obtain ⟨hadm, st, sid⟩ := a
  cases sid with
  | none => simp [onsetForAbx] at h
  | some sid =>
    cases hp : pickClosest st
        (bactSub.filter fun b => decide (b.stay_id = some sid)) with
    | none => simp [onsetForAbx, hp] at h
    | some b =>
      have h2 : (onsetOfPair st b.charttime).map
          (fun t => (⟨b.subject_id, sid, t⟩ : OnsetRecord)) = some r := by
        rw [← h]
        simp [onsetForAbx, hp]
      rw [Option.map_eq_some'] at h2
      obtain ⟨t, ht, hr⟩ := h2
      subst hr
      have hbmem := pickClosest_mem st _ b hp
      rw [List.mem_filter] at hbmem
      have hbstay : b.stay_id = some sid := by
        have := hbmem.2
        rwa [decide_eq_true_eq] at this
      refine ⟨rfl, b, hp, hbmem.1, hbstay, rfl, ?_⟩
      simp only [onsetOfPair] at ht
      split at ht
      · left
        injection ht with ht2
        exact ht2.symm
      · split at ht
        · right
          injection ht with ht2
          exact ht2.symm
        · exact absurd ht (by simp)

/-- Claim C9: every emitted onset record's onset_time equals either the
matched antibiotic event's reference time or the matched culture event's
reference time; it is never a derived value. -/
theorem C9_onset_time_from_events :
    ∀ (abx : List AbxEvent) (bacterio : List BactEvent) (r : OnsetRecord),
      r ∈ find_infection_onset abx bacterio →
      ∃ a ∈ abx, ∃ b ∈ bacterio,
        a.stay_id = some r.stay_id ∧ b.stay_id = some r.stay_id ∧
        (r.onset_time = a.starttime ∨ r.onset_time = b.charttime) := by
  intro abx bacterio r hr
  unfold find_infection_onset at hr
  have hr2 : r ∈ abx.filterMap (onsetForAbx (bactSubOf bacterio)) :=
    dedupByStay_subset _ [] r hr
  obtain ⟨a, ha, hfa⟩ := List.mem_filterMap.mp hr2
  obtain ⟨hstay, b, _, hbmem, hbstay, _, honset⟩ := onsetForAbx_inv _ _ _ hfa
  have hbb : b ∈ bacterio := by
    have := hbmem
    rw [bactSubOf, List.mem_filter] at this
    exact this.1
  exact ⟨a, ha, b, hbb, hstay, hbstay, honset⟩

theorem C9_onset_time_from_events_witness :
    ∃ a ∈ [(⟨3, 950, some 1⟩ : AbxEvent)], ∃ b ∈ [(⟨7, 900, some 1⟩ : BactEvent)],
      a.stay_id = some 1 ∧ b.stay_id = some 1 ∧
      ((900 : Int) = a.starttime ∨ (900 : Int) = b.charttime) :=
  C9_onset_time_from_events [⟨3, 950, some 1⟩] [⟨7, 900, some 1⟩]
    ⟨7, 1, 900⟩ (by decide)

/-- Claim C10: every emitted onset record's subject_id is taken from the
matched culture row (the nearest culture selected for the generating
antibiotic event), not from the antibiotic event or the stay table. -/
theorem C10_subject_from_culture :
    ∀ (abx : List AbxEvent) (bacterio : List BactEvent) (r : OnsetRecord),
      r ∈ find_infection_onset abx bacterio →
      ∃ a ∈ abx, a.stay_id = some r.stay_id ∧
        ∃ b ∈ bacterio,
          pickClosest a.starttime
              ((bactSubOf bacterio).filter fun x =>
                decide (x.stay_id = some r.stay_id)) = some b
          ∧ r.subject_id = b.subject_id := by
  intro abx bacterio r hr
  unfold find_infection_onset at hr
  have hr2 : r ∈ abx.filterMap (onsetForAbx (bactSubOf bacterio)) :=
    dedupByStay_subset _ [] r hr
  obtain ⟨a, ha, hfa⟩ := List.mem_filterMap.mp hr2
  obtain ⟨hstay, b, hp, hbmem, _, hsubj, _⟩ := onsetForAbx_inv _ _ _ hfa
  have hbb : b ∈ bacterio := by
    have := hbmem
    rw [bactSubOf, List.mem_filter] at this
    exact this.1
  exact ⟨a, ha, hstay, b, hbb, hp, hsubj⟩

theorem C10_subject_from_culture_witness :
    ∃ a ∈ [(⟨4, 2000, some 6⟩ : AbxEvent)], a.stay_id = some 6 ∧
      ∃ b ∈ [(⟨11, 1500, some 6⟩ : BactEvent)],
        pickClosest a.starttime
            ((bactSubOf [(⟨11, 1500, some 6⟩ : BactEvent)]).filter fun x =>
              decide (x.stay_id = some 6)) = some b
        ∧ (11 : Int) = b.subject_id :=
  C10_subject_from_culture [⟨4, 2000, some 6⟩] [⟨11, 1500, some 6⟩]
    ⟨11, 6, 1500⟩ (by decide)

/-- Claim C1 counterexample: in the spec's scenario (stay S1 with
interval [1000, 5000], culture at 900 resolved to S1, antibiotic at 950
resolved to S1) the detector does not emit onset_time 950: the
antibiotic (950) follows the culture (900), so branch C2 applies. -/
theorem C1_scenario_counterexample :
    ¬ ∃ r ∈ find_infection_onset
        ((fill_missing_icustay_ids [⟨7, 900, none⟩]
            [⟨1, some 7, some 3, 1000, 5000⟩] [⟨3, 950, none⟩]).2)
        ((fill_missing_icustay_ids [⟨7, 900, none⟩]
            [⟨1, some 7, some 3, 1000, 5000⟩] [⟨3, 950, none⟩]).1),
      r.stay_id = 1 ∧ r.onset_time = 950 := by decide

/-- Claim C1 as amended: in that scenario the detector emits exactly one
record for stay S1 with onset_time 900, the culture time. -/
theorem C1_scenario_amended :
    find_infection_onset
        ((fill_missing_icustay_ids [⟨7, 900, none⟩]
            [⟨1, some 7, some 3, 1000, 5000⟩] [⟨3, 950, none⟩]).2)
        ((fill_missing_icustay_ids [⟨7, 900, none⟩]
            [⟨1, some 7, some 3, 1000, 5000⟩] [⟨3, 950, none⟩]).1)
      = [⟨7, 1, 900⟩] := by decide

/-- Claim C2 counterexample: an antibiotic event that already carries
stay_id 99 is re-resolved by the antibiotic path and its stay_id is
overwritten with the valid candidate's stay_id 5. -/
theorem C2_overwrite_counterexample :
    (fill_missing_icustay_ids [] [⟨5, none, some 1, 0, 10⟩] [⟨1, 3, some 99⟩]).2
      = [⟨1, 3, some 5⟩]
    ∧ (⟨1, 3, some 99⟩ : AbxEvent).stay_id ≠ (⟨1, 3, some 5⟩ : AbxEvent).stay_id := by
  decide

/-- Claim C2 as amended: only the culture path restricts resolution to
events with unset stay_id (those already carrying one pass through
unchanged); the antibiotic path considers every event and assigns the
last valid candidate's stay_id regardless of the event's existing
stay_id. -/
theorem C2_frame_amended :
    (∀ (demog : List Stay) (e : BactEvent), e.stay_id.isSome →
      resolveBact demog e = e)
    ∧ (∀ (demog : List Stay) (e : AbxEvent) (s : Stay),
        (abxValid demog e.hadm_id e.starttime).getLast? = some s →
        (resolveAbx demog e).stay_id = some s.stay_id) := by
  constructor
  · intro demog e he
    obtain ⟨subj, ct, sid⟩ := e
    cases sid with
    | none => simp at he
    | some v => rfl
  · intro demog e s h
    obtain ⟨hadm, st, sid⟩ := e
    simp only [resolveAbx]
    rw [h]

theorem C2_frame_amended_witness :
    resolveBact [] ⟨7, 0, some 3⟩ = ⟨7, 0, some 3⟩
    ∧ (resolveAbx [⟨5, none, some 1, 0, 10⟩] ⟨1, 3, some 99⟩).stay_id = some 5 :=
  ⟨C2_frame_amended.1 [] ⟨7, 0, some 3⟩ rfl,
   C2_frame_amended.2 [⟨5, none, some 1, 0, 10⟩] ⟨1, 3, some 99⟩
     ⟨5, none, some 1, 0, 10⟩ (by decide)⟩
